import Mathlib

/-!
Verification of the training driver of `bert-blog-tagger` (`src/train.py`).

The repository delegates model evaluation, gradient computation, tokenization
and optimizer math to external libraries; the claims checked here concern the
control logic of `train.py`: the epoch loop of `main` (lines 35-49), the
`run_epoch` function (lines 52-73), the CLI declaration (lines 76-97), and the
early-stop monitor and scheduler configuration the driver wires together.

Losses are modelled as rationals (`ℚ`); the opaque model/optimizer/scheduler
state threaded through an epoch is a type parameter `σ`, with the per-batch
loss computation and the per-batch parameter update given as abstract
functions `lossOf : σ → B → ℚ` and `stepOf : σ → B → σ`.
-/

namespace BertTagger

/-- Modelled from the spec: the class `EarlyStopMonitor` lives in `utils.py`,
which is not under `src/`. Per spec section 4.3, its state is the best loss
seen so far (initially unset), a counter of consecutive non-improving epochs,
a stop flag (initially false) and a patience threshold. -/
structure EarlyStopMonitor where
  patience : Nat
  best : Option ℚ
  counter : Nat
  stop : Bool
deriving Repr, DecidableEq

/-- Freshly constructed monitor: best unset, counter zero, stop flag false. -/
def EarlyStopMonitor.mk0 (patience : Nat) : EarlyStopMonitor :=
  ⟨patience, none, 0, false⟩

/-- A loss improves on the running best when the best is unset or the loss is
strictly lower. -/
def improves : Option ℚ → ℚ → Bool
  | none, _ => true
  | some b, l => decide (l < b)

/-- Modelled from the spec: `EarlyStopMonitor.__call__` (in `utils.py`, not
under `src/`). On each new validation loss: if lower than best (or best
unset), update best and reset counter to zero; otherwise increment the
counter. If the counter reaches or exceeds the patience, set the stop flag;
the stop flag is never cleared. -/
def EarlyStopMonitor.step (m : EarlyStopMonitor) (l : ℚ) : EarlyStopMonitor :=
  let m1 :=
    if improves m.best l then
      { m with best := some l, counter := 0 }
    else
      { m with counter := m.counter + 1 }
  if m1.patience ≤ m1.counter then { m1 with stop := true } else m1

/-- Monitor state after feeding a whole sequence of validation losses to a
fresh monitor with the given patience. -/
def feedLosses (patience : Nat) (ls : List ℚ) : EarlyStopMonitor :=
  ls.foldl EarlyStopMonitor.step (EarlyStopMonitor.mk0 patience)

/-- The (running best, consecutive-failure count) bookkeeping of the monitor,
in isolation from the stop flag. -/
def bcStep : Option ℚ × Nat → ℚ → Option ℚ × Nat
  | (best, cnt), l => if improves best l then (some l, 0) else (best, cnt + 1)

/-- Count of consecutive losses at the end of `ls` that fail to improve on the
running best, as accumulated left to right from an unset best. -/
def consecFails (ls : List ℚ) : Nat :=
  (ls.foldl bcStep (none, 0)).2

/-- The validation-loss sequence of the worked example in the spec. -/
def exampleLosses : List ℚ := [9/10, 8/10, 85/100, 86/100]

lemma step_patience (m : EarlyStopMonitor) (l : ℚ) :
    (m.step l).patience = m.patience := by
  unfold EarlyStopMonitor.step
  by_cases h : improves m.best l <;> simp [h] <;> split <;> rfl

lemma foldl_step_patience (ls : List ℚ) (m : EarlyStopMonitor) :
    (ls.foldl EarlyStopMonitor.step m).patience = m.patience := by
  induction ls generalizing m with
  | nil => rfl
  | cons l ls ih => simp [List.foldl_cons, ih, step_patience]

lemma step_bc (m : EarlyStopMonitor) (l : ℚ) :
    ((m.step l).best, (m.step l).counter) = bcStep (m.best, m.counter) l := by
  unfold EarlyStopMonitor.step bcStep
  by_cases h : improves m.best l <;> simp [h] <;> split <;> simp

lemma foldl_step_bc (ls : List ℚ) (m : EarlyStopMonitor) :
    ((ls.foldl EarlyStopMonitor.step m).best,
      (ls.foldl EarlyStopMonitor.step m).counter) =
      ls.foldl bcStep (m.best, m.counter) := by
  induction ls generalizing m with
  | nil => rfl
  | cons l ls ih => simp [List.foldl_cons, ih, step_bc]

lemma step_stop_iff (m : EarlyStopMonitor) (l : ℚ) :
    (m.step l).stop = true ↔
      m.stop = true ∨ m.patience ≤ (bcStep (m.best, m.counter) l).2 := by
  unfold EarlyStopMonitor.step bcStep
  by_cases h : improves m.best l <;> simp [h] <;> split <;> simp_all

lemma stop_sticky (ls : List ℚ) (m : EarlyStopMonitor) (h : m.stop = true) :
    (ls.foldl EarlyStopMonitor.step m).stop = true := by
  induction ls generalizing m with
  | nil => exact h
  | cons l ls ih =>
    refine ih (m.step l) ?_
    exact (step_stop_iff m l).2 (Or.inl h)

lemma foldl_stop_iff (ls : List ℚ) (m : EarlyStopMonitor) :
    (ls.foldl EarlyStopMonitor.step m).stop = true ↔
      m.stop = true ∨
        ∃ k, 0 < k ∧ k ≤ ls.length ∧
          m.patience ≤ ((ls.take k).foldl bcStep (m.best, m.counter)).2 := by
  induction ls generalizing m with
  | nil =>
    simp only [List.foldl_nil, List.length_nil]
    constructor
    · intro h; exact Or.inl h
    · rintro (h | ⟨k, hk0, hk, _⟩)
      · exact h
      · omega
  | cons l ls ih =>
    rw [List.foldl_cons, ih]
    have hbc := step_bc m l
    have hpat := step_patience m l
    rw [hpat, hbc]
    constructor
    · rintro (h | ⟨k, hk0, hk, hle⟩)
      · rcases (step_stop_iff m l).1 h with h' | h'
        · exact Or.inl h'
        · exact Or.inr ⟨1, by omega, by simp, by simpa [List.foldl_cons] using h'⟩
      · refine Or.inr ⟨k + 1, by omega, by simp; omega, ?_⟩
        simpa [List.take_succ_cons, List.foldl_cons] using hle
    · rintro (h | ⟨k, hk0, hk, hle⟩)
      · exact Or.inl ((step_stop_iff m l).2 (Or.inl h))
      · rcases Nat.exists_eq_add_of_lt hk0 with ⟨j, hj⟩
        have hj' : k = j + 1 := by omega
        subst hj'
        simp only [List.take_succ_cons, List.foldl_cons] at hle
        rcases Nat.eq_zero_or_pos j with hj0 | hj0
        · subst hj0
          simp only [List.take_zero, List.foldl_nil] at hle
          exact Or.inl ((step_stop_iff m l).2 (Or.inr hle))
        · refine Or.inr ⟨j, hj0, by simp at hk; omega, hle⟩

/-- C1: fed any sequence of validation losses, the early-stop monitor's stop
flag is true iff at some point (after at least one loss was processed) the
count of consecutive losses failing to improve on the running best reached
the patience; once true the flag never resets within the run; and on the
example losses [0.9, 0.8, 0.85, 0.86] with patience 2 the flag becomes true
exactly after the fourth value (it is still false after the third). -/
theorem earlyStop_stop_iff_consecFails (P : Nat) (losses extra : List ℚ) :
    ((feedLosses P losses).stop = true ↔
        ∃ k, 0 < k ∧ k ≤ losses.length ∧ P ≤ consecFails (losses.take k))
      ∧ ((feedLosses P losses).stop = true →
          (feedLosses P (losses ++ extra)).stop = true)
      ∧ (feedLosses 2 exampleLosses).stop = true
      ∧ (feedLosses 2 (exampleLosses.take 3)).stop = false := by
  refine ⟨?_, ?_,
    by norm_num [feedLosses, exampleLosses, EarlyStopMonitor.step,
      EarlyStopMonitor.mk0, improves],
    by norm_num [feedLosses, exampleLosses, EarlyStopMonitor.step,
      EarlyStopMonitor.mk0, improves]⟩
  · have h := foldl_stop_iff losses (EarlyStopMonitor.mk0 P)
    simpa [feedLosses, EarlyStopMonitor.mk0, consecFails] using h
  · intro h
    have : feedLosses P (losses ++ extra) =
        extra.foldl EarlyStopMonitor.step (feedLosses P losses) := by
      simp [feedLosses, List.foldl_append]
    rw [this]
    exact stop_sticky extra _ h

/-- Witness for C1: the theorem instantiated on the example losses with
patience 2. -/
theorem earlyStop_stop_iff_consecFails_witness :
    (feedLosses 2 exampleLosses).stop = true
      ∧ (feedLosses 2 (exampleLosses.take 3)).stop = false :=
  ⟨(earlyStop_stop_iff_consecFails 2 exampleLosses []).2.2.1,
    (earlyStop_stop_iff_consecFails 2 exampleLosses []).2.2.2⟩

/-- Embedding of the epoch loop of `main` (src/train.py lines 35-49), with the
per-epoch work abstracted to the validation loss each epoch produces (one list
entry per configured epoch). Returns the monitor state at loop exit together
with the number of `save_checkpoint` calls made inside the loop, i.e. by the
branch `if monitor.stop: save_checkpoint(...); break`. -/
def mainLoop (mon : EarlyStopMonitor) : List ℚ → EarlyStopMonitor × Nat
  | [] => (mon, 0)
  | l :: ls =>
    let mon1 := mon.step l
    if mon1.stop then (mon1, 1) else mainLoop mon1 ls

/-- Total number of `save_checkpoint` calls in one run of `main`: the calls
made inside the epoch loop plus the post-loop
`if not monitor.stop: save_checkpoint(...)` (src/train.py lines 48-49). -/
def mainSaves (patience : Nat) (valLosses : List ℚ) : Nat :=
  (mainLoop (EarlyStopMonitor.mk0 patience) valLosses).2 +
    (if (mainLoop (EarlyStopMonitor.mk0 patience) valLosses).1.stop then 0 else 1)

lemma mainLoop_saves (ls : List ℚ) (mon : EarlyStopMonitor)
    (h : mon.stop = false) :
    (mainLoop mon ls).2 + (if (mainLoop mon ls).1.stop then 0 else 1) = 1 := by
  induction ls generalizing mon with
  | nil => simp [mainLoop, h]
  | cons l ls ih =>
    by_cases hs : (mon.step l).stop = true
    · simp [mainLoop, hs]
    · have hs' : (mon.step l).stop = false := by
        cases hstop : (mon.step l).stop
        · rfl
        · exact absurd hstop hs
      simp only [mainLoop, hs', if_false, Bool.false_eq_true]
      exact ih (mon.step l) hs'

/-- C2: in every run of the training driver (any number of epochs, any
patience), `save_checkpoint` is called exactly once; it is called inside the
epoch loop exactly when the monitor's stop flag triggered, and otherwise once
after the loop over all configured epochs. -/
theorem main_saves_checkpoint_once (patience : Nat) (valLosses : List ℚ) :
    mainSaves patience valLosses = 1
      ∧ (mainLoop (EarlyStopMonitor.mk0 patience) valLosses).2 =
          (if (mainLoop (EarlyStopMonitor.mk0 patience) valLosses).1.stop
            then 1 else 0) := by
  have h := mainLoop_saves valLosses (EarlyStopMonitor.mk0 patience) rfl
  refine ⟨h, ?_⟩
  by_cases hs : (mainLoop (EarlyStopMonitor.mk0 patience) valLosses).1.stop =
      true
  · simp only [hs, if_true] at h ⊢; omega
  · simp only [hs, if_false] at h ⊢
    simp only [Bool.not_eq_true] at hs
    simp [hs] at h ⊢; omega

/-- Python runtime errors that `run_epoch` can raise: the entry assertion
(src/train.py lines 55-58), the `scheduler.step()` call on `None`
(line 71), and the division by `len(data_loader)` when the loader is empty
(line 73). -/
inductive PyError where
  | assertionError (msg : String)
  | attributeError (msg : String)
  | zeroDivisionError
deriving Repr, DecidableEq

/-- Embedding of the batch loop of `run_epoch` (src/train.py lines 60-72).
State `σ` bundles everything the optimizer step mutates (model parameters,
optimizer and scheduler state); `lossOf m b` is the loss value
`criterion(model(**tokens), labels).item()` computed on batch `b` in state
`m`, and `stepOf m b` is the state after `optimizer.step()` for that batch.
When an optimizer is present the source also calls `scheduler.step()`; with
`scheduler = None` that call raises an `AttributeError`. The accumulated
`total_loss` is threaded as `total`; the pair returned is the loop outcome
and the state after the call (state mutations before an exception persist,
as they do in Python). -/
def runEpochLoop {σ B : Type} (lossOf : σ → B → ℚ) (stepOf : σ → B → σ)
    (hasOpt hasSched : Bool) : List B → σ → ℚ → Except PyError ℚ × σ
  | [], m, total => (Except.ok total, m)
  | b :: bs, m, total =>
    let loss := lossOf m b
    if hasOpt then
      let m1 := stepOf m b
      if hasSched then
        runEpochLoop lossOf stepOf hasOpt hasSched bs m1 (total + loss)
      else
        (Except.error
          (PyError.attributeError "NoneType object has no attribute step"), m1)
    else
      runEpochLoop lossOf stepOf hasOpt hasSched bs m (total + loss)

/-- Embedding of `run_epoch` (src/train.py lines 52-73). If `optimizer` is
`None` the entry assertion requires `scheduler` to be `None` as well;
otherwise the batch loop runs and the accumulated loss is divided by
`len(data_loader)`, which raises `ZeroDivisionError` on an empty loader. The
optimizer and scheduler arguments are reduced to their presence
(`Option Unit`), their behaviour being carried by `stepOf`. -/
def run_epoch {σ B : Type} (lossOf : σ → B → ℚ) (stepOf : σ → B → σ)
    (optimizer scheduler : Option Unit) (data_loader : List B) (m : σ) :
    Except PyError ℚ × σ :=
  if optimizer.isNone && scheduler.isSome then
    (Except.error (PyError.assertionError
      "If `scheduler` is provided, you must also specify an `optimizer`"), m)
  else
    match runEpochLoop lossOf stepOf optimizer.isSome scheduler.isSome
        data_loader m 0 with
    | (Except.error e, m1) => (Except.error e, m1)
    | (Except.ok total, m1) =>
      if data_loader.length = 0 then (Except.error PyError.zeroDivisionError, m1)
      else (Except.ok (total / (data_loader.length : ℚ)), m1)

/-- The sequence of per-batch loss values `loss.item()` computed during the
batch loop, in order. -/
def batchLosses {σ B : Type} (lossOf : σ → B → ℚ) (stepOf : σ → B → σ)
    (hasOpt : Bool) : List B → σ → List ℚ
  | [], _ => []
  | b :: bs, m =>
    lossOf m b ::
      batchLosses lossOf stepOf hasOpt bs (if hasOpt then stepOf m b else m)

/-- The state after the batch loop completes without an exception. -/
def finalState {σ B : Type} (stepOf : σ → B → σ) (hasOpt : Bool) :
    List B → σ → σ
  | [], m => m
  | b :: bs, m => finalState stepOf hasOpt bs (if hasOpt then stepOf m b else m)

lemma runEpochLoop_ok {σ B : Type} (lossOf : σ → B → ℚ) (stepOf : σ → B → σ)
    (hasOpt hasSched : Bool) (hcfg : hasOpt = hasSched) (bs : List B) (m : σ)
    (total : ℚ) :
    runEpochLoop lossOf stepOf hasOpt hasSched bs m total =
      (Except.ok (total + (batchLosses lossOf stepOf hasOpt bs m).sum),
        finalState stepOf hasOpt bs m) := by
  subst hcfg
  induction bs generalizing m total with
  | nil => simp [runEpochLoop, batchLosses, finalState]
  | cons b bs ih =>
    cases hasOpt with
    | false => simp [runEpochLoop, batchLosses, finalState, ih]; ring_nf
    | true => simp [runEpochLoop, batchLosses, finalState, ih]; ring_nf

/-- C3: called with `optimizer = None` and a scheduler present, `run_epoch`
fails with the entry assertion before any batch is processed: the outcome is
the assertion error and the state is unchanged, whatever the data loader
holds. -/
theorem run_epoch_assert_scheduler_without_optimizer {σ B : Type}
    (lossOf : σ → B → ℚ) (stepOf : σ → B → σ) (data_loader : List B) (m : σ) :
    run_epoch lossOf stepOf none (some ()) data_loader m =
      (Except.error (PyError.assertionError
        "If `scheduler` is provided, you must also specify an `optimizer`"),
        m) := by
  simp [run_epoch]

/-- C4: on a non-empty batch sequence, in a configuration that completes
(optimizer and scheduler both absent, the evaluation pass, or both present,
the training pass), `run_epoch` returns the sum of the per-batch loss values
divided by the number of batches — their arithmetic mean. -/
theorem run_epoch_mean_loss {σ B : Type} (lossOf : σ → B → ℚ)
    (stepOf : σ → B → σ) (optimizer scheduler : Option Unit)
    (data_loader : List B) (m : σ)
    (hcfg : optimizer.isSome = scheduler.isSome) (hne : data_loader ≠ []) :
    (run_epoch lossOf stepOf optimizer scheduler data_loader m).1 =
      Except.ok
        ((batchLosses lossOf stepOf optimizer.isSome data_loader m).sum /
          (data_loader.length : ℚ)) := by
  have hlen : data_loader.length ≠ 0 := by
    simpa [List.length_eq_zero] using hne
  unfold run_epoch
  have hnotassert : (optimizer.isNone && scheduler.isSome) = false := by
    cases optimizer <;> cases scheduler <;> simp_all
  rw [hnotassert]
  simp only [Bool.false_eq_true, if_false]
  rw [runEpochLoop_ok lossOf stepOf optimizer.isSome scheduler.isSome hcfg]
  simp [hlen]

/-- Witness for C4: a two-batch evaluation pass returns the mean of the two
batch losses. -/
theorem run_epoch_mean_loss_witness :
    (Option.isSome (none : Option Unit) = Option.isSome (none : Option Unit))
      ∧ ([(1 : ℚ), 3] ≠ [])
      ∧ (run_epoch (fun (_ : ℚ) (b : ℚ) => b) (fun m _ => m) none none
            [(1 : ℚ), 3] 0).1 =
          Except.ok
            ((batchLosses (fun (_ : ℚ) (b : ℚ) => b) (fun m _ => m)
                (Option.isSome (none : Option Unit)) [(1 : ℚ), 3] 0).sum /
              (([(1 : ℚ), 3].length : Nat) : ℚ)) :=
  ⟨rfl, by simp,
    run_epoch_mean_loss (fun (_ : ℚ) (b : ℚ) => b) (fun m _ => m) none none
      [(1 : ℚ), 3] 0 rfl (by simp)⟩

/-- C5: with no optimizer (and no scheduler), no parameter update happens:
the state after the call equals the state before it, for every data loader,
including the empty one (where the call ends in the division error). -/
theorem run_epoch_eval_preserves_state {σ B : Type} (lossOf : σ → B → ℚ)
    (stepOf : σ → B → σ) (data_loader : List B) (m : σ) :
    (run_epoch lossOf stepOf none none data_loader m).2 = m := by
  unfold run_epoch
  simp only [Option.isNone_none, Option.isSome_none, Bool.and_false,
    Bool.false_eq_true, if_false]
  rw [runEpochLoop_ok lossOf stepOf false false rfl]
  have hfin : ∀ (bs : List B) (s : σ), finalState stepOf false bs s = s := by
    intro bs
    induction bs with
    | nil => intro s; rfl
    | cons b bs ih => intro s; simpa [finalState] using ih s
  by_cases h : data_loader.length = 0 <;> simp [h, hfin]

/-- C6: with an optimizer but no scheduler, the entry assertion passes (it
guards only the converse combination) and the call fails on the first batch,
when `scheduler.step()` is invoked on `None`: the outcome is the attribute
error, independent of the remaining batches, and only the first batch's
optimizer step has touched the state. -/
theorem run_epoch_optimizer_without_scheduler_errors {σ B : Type}
    (lossOf : σ → B → ℚ) (stepOf : σ → B → σ) (b : B) (bs : List B) (m : σ) :
    run_epoch lossOf stepOf (some ()) none (b :: bs) m =
      (Except.error
        (PyError.attributeError "NoneType object has no attribute step"),
        stepOf m b) := by
  simp [run_epoch, runEpochLoop]

/-- C10: on a data loader with zero batches, in any configuration that passes
the entry assertion, `run_epoch` does not return a mean loss: the division
`total_loss / len(data_loader)` raises `ZeroDivisionError`. -/
theorem run_epoch_empty_loader_zero_division {σ B : Type}
    (lossOf : σ → B → ℚ) (stepOf : σ → B → σ)
    (optimizer scheduler : Option Unit)
    (hcfg : ¬(optimizer = none ∧ scheduler ≠ none)) (m : σ) :
    run_epoch lossOf stepOf optimizer scheduler ([] : List B) m =
      (Except.error PyError.zeroDivisionError, m) := by
  have hnotassert : (optimizer.isNone && scheduler.isSome) = false := by
    cases optimizer <;> cases scheduler <;> simp_all
  simp [run_epoch, hnotassert, runEpochLoop]

/-- Witness for C10: the evaluation configuration on an empty loader ends in
the division error. -/
theorem run_epoch_empty_loader_zero_division_witness :
    (¬((none : Option Unit) = none ∧ (none : Option Unit) ≠ none))
      ∧ run_epoch (fun (_ : ℚ) (b : ℚ) => b) (fun m _ => m) none none
          ([] : List ℚ) 0 =
        (Except.error PyError.zeroDivisionError, 0) :=
  ⟨by simp,
    run_epoch_empty_loader_zero_division (fun (_ : ℚ) (b : ℚ) => b)
      (fun m _ => m) none none (by simp) 0⟩

/-- Modelled from the spec: the factory `get_linear_schedule_with_warmup` is
external library code, not under `src/`. Per its documented behaviour — the
spec's "learning rate ramps linearly from zero to a peak then decays linearly
to zero over training steps" — the multiplicative learning-rate factor at a
given step is `step / max(1, num_warmup_steps)` during warmup and
`max(0, (num_training_steps - step) / max(1, num_training_steps -
num_warmup_steps))` afterwards. -/
def linearScheduleFactor (numWarmupSteps numTrainingSteps step : Nat) : ℚ :=
  if step < numWarmupSteps then
    (step : ℚ) / ((max 1 numWarmupSteps : ℕ) : ℚ)
  else
    max 0 ((((numTrainingSteps : ℤ) - (step : ℤ)) : ℚ) /
      ((max 1 ((numTrainingSteps : ℤ) - (numWarmupSteps : ℤ)) : ℤ) : ℚ))

/-- The schedule `main` configures (src/train.py lines 28-32):
`num_warmup_steps=0` and
`num_training_steps = args.num_epochs * len(train_loader)`. -/
def schedulerFactor (numEpochs numBatches step : Nat) : ℚ :=
  linearScheduleFactor 0 (numEpochs * numBatches) step

/-- C7 counterexample: with one epoch of one batch, the learning-rate factor
at the very first step is already the peak value 1, not 0: the driver
configures zero warmup steps, so no phase ramps the rate up from zero. -/
theorem scheduler_no_warmup_counterexample :
    schedulerFactor 1 1 0 = 1 ∧ (1 : ℚ) ≠ 0 := by
  constructor
  · norm_num [schedulerFactor, linearScheduleFactor]
  · norm_num

/-- C7 amended: the configured schedule has no warmup phase: with zero warmup
steps the learning-rate factor starts at its peak value 1 and decays linearly
to zero over `num_epochs * (number of training batches)` steps, remaining at
zero for any later step. -/
theorem scheduler_peak_then_linear_decay (numEpochs numBatches : Nat)
    (h : 0 < numEpochs * numBatches) :
    schedulerFactor numEpochs numBatches 0 = 1
      ∧ (∀ step, step ≤ numEpochs * numBatches →
          schedulerFactor numEpochs numBatches step =
            (((numEpochs * numBatches : ℕ) : ℚ) - (step : ℚ)) /
              ((numEpochs * numBatches : ℕ) : ℚ))
      ∧ schedulerFactor numEpochs numBatches (numEpochs * numBatches) = 0
      ∧ (∀ step, numEpochs * numBatches ≤ step →
          schedulerFactor numEpochs numBatches step = 0) := by
  have hT : (0 : ℤ) < (numEpochs * numBatches : ℕ) := by exact_mod_cast h
  have hmax : max 1 (((numEpochs * numBatches : ℕ) : ℤ) - ((0 : ℕ) : ℤ)) =
      ((numEpochs * numBatches : ℕ) : ℤ) := by
    simp only [Nat.cast_zero, sub_zero]
    exact max_eq_right (by omega)
  have hTQ : (0 : ℚ) < ((numEpochs * numBatches : ℕ) : ℚ) := by
    exact_mod_cast hT
  have hgen : ∀ step : Nat, step ≤ numEpochs * numBatches →
      schedulerFactor numEpochs numBatches step =
        (((numEpochs * numBatches : ℕ) : ℚ) - (step : ℚ)) /
          ((numEpochs * numBatches : ℕ) : ℚ) := by
    intro step hstep
    unfold schedulerFactor linearScheduleFactor
    rw [if_neg (by omega), hmax]
    rw [max_eq_right]
    · push_cast; ring
    · apply div_nonneg
      · have hsq : (step : ℚ) ≤ ((numEpochs * numBatches : ℕ) : ℚ) := by
          exact_mod_cast hstep
        push_cast at hsq ⊢
        linarith
      · exact le_of_lt hTQ
  refine ⟨?_, hgen, ?_, ?_⟩
  · rw [hgen 0 (by omega), Nat.cast_zero, sub_zero, div_self (ne_of_gt hTQ)]
  · rw [hgen (numEpochs * numBatches) (le_refl _)]
    simp
  · intro step hstep
    unfold schedulerFactor linearScheduleFactor
    rw [if_neg (by omega), hmax]
    rw [max_eq_left]
    apply div_nonpos_of_nonpos_of_nonneg
    · have hsq : ((numEpochs * numBatches : ℕ) : ℚ) ≤ (step : ℚ) := by
        exact_mod_cast hstep
      push_cast at hsq ⊢
      linarith
    · exact le_of_lt hTQ

/-- Witness for the amended C7: one epoch of one batch gives a positive step
count and a peak starting factor. -/
theorem scheduler_peak_then_linear_decay_witness :
    0 < 1 * 1 ∧ schedulerFactor 1 1 0 = 1 :=
  ⟨by norm_num, (scheduler_peak_then_linear_decay 1 1 (by norm_num)).1⟩

/-- The default value of the `--model_name` CLI argument
(src/train.py line 81). -/
def modelNameDefault : String := "roberta"

/-- The declared `choices` of `--model_name` (src/train.py lines 82-86). -/
def modelNameChoices : List String :=
  ["roberta-base", "distilbert-base-uncased", "allenai/longformer-base-4096"]

/-- C8: the CLI default for `--model_name` is the string "roberta", which is
not a member of the declared three-element choice set. -/
theorem model_name_default_not_in_choices :
    modelNameDefault = "roberta" ∧ modelNameDefault ∉ modelNameChoices := by
  exact ⟨rfl, by decide⟩

/-- Command-line occurrences of the two freeze switches, in order. -/
inductive FlagTok where
  | freeze
  | unfreeze
deriving Repr, DecidableEq

/-- Embedding of the argparse handling of `--freeze_bert` and
`--unfreeze_bert` (src/train.py lines 94-96): two plain `store_true` /
`store_false` actions writing the shared destination `freeze_bert`, with
`set_defaults(freeze_bert=True)`. No mutually-exclusive group is declared, so
argparse applies the actions left to right and rejects no combination; the
value is the parsed `freeze_bert`. -/
def parseFreezeArgs (toks : List FlagTok) : Except String Bool :=
  Except.ok (toks.foldl
    (fun _ t =>
      match t with
      | FlagTok.freeze => true
      | FlagTok.unfreeze => false)
    true)

/-- C9 counterexample: a command line supplying both switches is not
rejected: it parses successfully, the later switch winning, so the two
switches are not mutually exclusive. -/
theorem freeze_flags_both_accepted :
    parseFreezeArgs [FlagTok.freeze, FlagTok.unfreeze] = Except.ok false := by
  rfl

/-- C9 amended: the two switches are not mutually exclusive: every
combination of occurrences parses successfully, the last occurrence
determining `freeze_bert`; when neither is supplied the parsed value defaults
to `True`. -/
theorem freeze_flags_last_wins (toks : List FlagTok) :
    parseFreezeArgs [] = Except.ok true
      ∧ (∃ b, parseFreezeArgs toks = Except.ok b)
      ∧ parseFreezeArgs (toks ++ [FlagTok.freeze]) = Except.ok true
      ∧ parseFreezeArgs (toks ++ [FlagTok.unfreeze]) = Except.ok false := by
  refine ⟨rfl, ⟨_, rfl⟩, ?_, ?_⟩ <;> simp [parseFreezeArgs, List.foldl_append]

end BertTagger
